import Mathlib

/-!
# Verification of `couchdb-replicator.py`

Shallow embedding of the replication script `src/couchdb-replicator.py`:

* `do_replicate` models the per-database job (lines 49-116): the primary
  replication trigger, the debug/verbose prints, the `ok`-field checks and
  the optional continuous-replication trigger.
* `submitted_dbs` models the submission loop of `main` (lines 251-268),
  including the system-database filter and the skip list.
* `waitLoop` models the polling loop of `main` (lines 270-289): each
  iteration is one tick (the `time.sleep(1)` cycle), newly finished threads
  are collected in submission order, the first raised exception is
  re-raised, and a progress snapshot `(len(done_threads), total)` is handed
  to the progress bar unless quiet mode is on.  Threads are modelled by the
  tick at which `thread.done()` becomes true plus the exception (if any)
  their `do_replicate` call raised; `fuel` bounds the number of observed
  loop iterations.
* `quote_plus` models `urllib.parse.quote_plus` for the default `safe=''`:
  ASCII alphanumerics and `_.-~` are kept, a space becomes `+`, every other
  character is percent-encoded per UTF-8 byte with uppercase hex digits.

The HTTP layer is the external collaborator: a call either yields a
`Response` (its decoded `ok` field, status code and body text) or raises,
which we model by `CallResult`.  `Outcome`/`specOutcome` are the
specification-side classification of a job run (spec sections 3 and 4.1);
`specOutcome` is derived from the observable behaviour of a run trace and
is the refinement link between the code and the spec's `Job Outcome`.
-/

/-- A decoded HTTP response: the `ok` field of the JSON body, the status
code and the raw body text (the latter two only feed the debug prints). -/
structure Response where
  ok : Bool
  status_code : Nat
  text : String
deriving DecidableEq, Repr

/-- Result of one `requests.post` call: either a response, or an exception
raised while performing the call / decoding its JSON body. -/
inductive CallResult where
  | success (res : Response)
  | exn (e : String)
deriving DecidableEq, Repr

/-- A replication trigger request: the `_replicate` URL it is POSTed to and
the JSON payload (lines 69-75 build the payload, line 74-75 the URL). -/
structure Request where
  url : String
  source : String
  target : String
  create_target : Bool
  continuous : Option Bool
deriving DecidableEq, Repr

/-- One line printed by `do_replicate`; each constructor corresponds to one
`print` site in the source:
* `verboseLine msg` — `verbose_print(verbose, msg)` (lines 76, 90, 97, 114);
* `debugRequest` — `print('Request POST {} with data {}')` (lines 82, 106);
* `debugResponse` — `print('HTTP response code {} with data {}')`
  (lines 84, 108);
* `failedReplicate db` — `print('*** Failed to replicate database {}')`
  (line 87);
* `failedContinuous db` — `print('*** Failed to setup continuous
  replication of database {}')` (line 111). -/
inductive OutputLine where
  | verboseLine (msg : String)
  | debugRequest (url : String) (payload : Request)
  | debugResponse (status : Nat) (text : String)
  | failedReplicate (db : String)
  | failedContinuous (db : String)
deriving DecidableEq, Repr

/-- How a `do_replicate` call ends: a plain `return` (Python returns `None`
from every return site) or a propagating exception. -/
inductive RunResult where
  | returned
  | raised (e : String)
deriving DecidableEq, Repr

/-- Observable trace of one `do_replicate` call: the requests POSTed in
order, the lines printed, and how the call ended. -/
structure JobTrace where
  requests : List Request
  printed : List OutputLine
  result : RunResult
deriving DecidableEq, Repr

/-- `verbose_print` (lines 217-219): print the message only when verbose. -/
def verbose_print (verbose : Bool) (msg : String) : List OutputLine :=
  if verbose then [OutputLine.verboseLine msg] else []

/-- The primary replication trigger built at lines 69-75: payload
`{source: source/db, target: target/db, create_target: true}` (no
`continuous` key) POSTed to the `_replicate` API of the target when
`use_target` is set, of the source otherwise. -/
def primaryRequest (source target db : String) (use_target : Bool) : Request :=
  { url := (if use_target then target else source) ++ "/_replicate"
    source := source ++ "/" ++ db
    target := target ++ "/" ++ db
    create_target := true
    continuous := none }

/-- The debug prints after a completed POST (lines 81-85 and 105-109). -/
def debug_prints (debug : Bool) (req : Request) (res : Response) : List OutputLine :=
  if debug then
    [OutputLine.debugRequest req.url req, OutputLine.debugResponse res.status_code res.text]
  else []

/-- `do_replicate` (lines 49-116).  `post` is the HTTP collaborator
(`requests.post` plus `res.json()['ok']` decoding).  The function POSTs the
primary trigger; on a non-ok response it prints the failure line and
returns; otherwise, when `continuous` is set, it POSTs the same payload
again with `continuous: true` to the same URL and checks that response's
`ok` field too.  Every non-raising path ends in the bare Python `return`
(value `None`), modelled by `RunResult.returned`. -/
def do_replicate (source target db : String)
    (continuous use_target verbose debug : Bool)
    (post : Request → CallResult) : JobTrace :=
  let payload := primaryRequest source target db use_target
  let out1 := verbose_print verbose ("Starting replication of database " ++ db)
  match post payload with
  | CallResult.exn e =>
      { requests := [payload], printed := out1, result := RunResult.raised e }
  | CallResult.success res =>
      let out2 := out1 ++ debug_prints debug payload res
      if !res.ok then
        { requests := [payload]
          printed := out2 ++ [OutputLine.failedReplicate db]
          result := RunResult.returned }
      else
        let out3 := out2 ++ verbose_print verbose
          ("Replication of database " ++ db ++ " successful")
        if !continuous then
          { requests := [payload], printed := out3, result := RunResult.returned }
        else
          let payload2 := { payload with continuous := some true }
          let out4 := out3 ++ verbose_print verbose
            ("Setting up continuous replication of database " ++ db)
          match post payload2 with
          | CallResult.exn e =>
              { requests := [payload, payload2], printed := out4
                result := RunResult.raised e }
          | CallResult.success res2 =>
              let out5 := out4 ++ debug_prints debug payload2 res2
              if !res2.ok then
                { requests := [payload, payload2]
                  printed := out5 ++ [OutputLine.failedContinuous db]
                  result := RunResult.returned }
              else
                { requests := [payload, payload2]
                  printed := out5 ++ verbose_print verbose
                    ("Continuous replication of database " ++ db ++ " successfully setup")
                  result := RunResult.returned }

/-- Spec section 3, `Job Outcome`: `Succeeded`, `FailedRemote(reason)` or
`FailedError(cause)`. -/
inductive Outcome where
  | Succeeded
  | FailedRemote (reason : String)
  | FailedError (cause : String)
deriving DecidableEq, Repr

/-- Spec-side classification of a finished run from its printed lines. -/
def classifyRun (db : String) (printed : List OutputLine) : RunResult → Outcome
  | RunResult.raised e => Outcome.FailedError e
  | RunResult.returned =>
      if OutputLine.failedReplicate db ∈ printed then
        Outcome.FailedRemote ("initial replication failed for " ++ db)
      else if OutputLine.failedContinuous db ∈ printed then
        Outcome.FailedRemote ("continuous replication setup failed for " ++ db)
      else Outcome.Succeeded

/-- Refinement map following the spec's words (sections 3, 4.1, 7): a job
run whose call raised is `FailedError(cause)`; a run that printed the
initial-failure line is `FailedRemote("initial replication failed for
<db>")`; one that printed the continuous-failure line is
`FailedRemote("continuous replication setup failed for <db>")`; any other
completed run `Succeeded`. -/
def specOutcome (db : String) (t : JobTrace) : Outcome :=
  classifyRun db t.printed t.result

/-- Uppercase hexadecimal digit. -/
def hexUpper (n : Nat) : Char :=
  if n < 10 then Char.ofNat (48 + n) else Char.ofNat (55 + n)

/-- `%XX` percent-encoding of one byte, uppercase hex. -/
def percentByte (b : UInt8) : String :=
  String.mk ['%', hexUpper (b.toNat / 16), hexUpper (b.toNat % 16)]

/-- The characters `urllib.parse` never quotes: ASCII alphanumerics and
`_.-~`. -/
def always_safe (c : Char) : Bool :=
  (65 ≤ c.toNat && c.toNat ≤ 90) || (97 ≤ c.toNat && c.toNat ≤ 122)
    || (48 ≤ c.toNat && c.toNat ≤ 57)
    || c == '_' || c == '.' || c == '-' || c == '~'

/-- Encoding of one character under `urllib.parse.quote_plus` with
`safe=''`: space becomes `+`, always-safe characters are kept, anything
else is percent-encoded per UTF-8 byte. -/
def quote_plus_char (c : Char) : String :=
  if c == ' ' then "+"
  else if always_safe c then String.singleton c
  else String.join ((String.utf8EncodeChar c).map percentByte)

/-- `urllib.parse.quote_plus` with the default `safe=''`. -/
def quote_plus (s : String) : String :=
  String.join (s.data.map quote_plus_char)

/-- Outcome of one iteration of the submission loop body (lines 251-268)
for one candidate database name. -/
inductive SubmitStep where
  | skippedSystem
  | skippedListed
  | submitted (encoded : String)
deriving DecidableEq, Repr

/-- `db.startswith('_')`: the first character of the name is `_`. -/
def starts_underscore (db : String) : Bool :=
  db.data.head? == some '_'

/-- The submission-loop body (lines 252-268): skip names starting with `_`
unless `system_dbs`; skip names whose raw or quote-plus-encoded form is in
the skip list; otherwise submit `do_replicate` on the encoded name. -/
def submitStep (system_dbs : Bool) (skip_db : List String) (db : String) : SubmitStep :=
  if starts_underscore db && !system_dbs then SubmitStep.skippedSystem
  else if skip_db.contains db || skip_db.contains (quote_plus db) then
    SubmitStep.skippedListed
  else SubmitStep.submitted (quote_plus db)

/-- The database names actually submitted to the executor, in order, as the
submission loop produces them (each entry is the quote-plus encoding of the
accepted candidate). -/
def submitted_dbs (system_dbs : Bool) (skip_db : List String) : List String → List String
  | [] => []
  | db :: rest =>
      match submitStep system_dbs skip_db db with
      | SubmitStep.submitted enc => enc :: submitted_dbs system_dbs skip_db rest
      | _ => submitted_dbs system_dbs skip_db rest

/-- The observable behaviour of one submitted worker thread: the tick of
the polling loop at which `thread.done()` first reports true, and the
exception the thread's `do_replicate` call raised, if any (`Future.
exception()` is `None` exactly when the call returned normally). -/
structure Thread where
  doneAt : Nat
  exn : Option String
deriving DecidableEq, Repr

/-- Indexing into the thread list (total, with a dummy default; every use
is guarded by an index bound). -/
def thread_get (threads : List Thread) (i : Nat) : Thread :=
  threads.getD i { doneAt := 0, exn := none }

/-- The list comprehension of lines 274-275: threads (by submission index)
that are not yet in `done_threads` and report done at tick `k`, in
submission order. -/
def newly_done (threads : List Thread) (done : List Nat) (k : Nat) : List Nat :=
  (List.range threads.length).filter
    (fun i => !done.contains i && decide ((thread_get threads i).doneAt ≤ k))

/-- How the polling loop of `main` (lines 270-289) ends:
* `finished snapshots completed` — the loop condition
  `len(done_threads) < total` became false; `snapshots` are the
  `(len(done_threads), total)` pairs handed to `printProgressBar`, in
  order, and `completed` is the final `len(done_threads)`;
* `raised e snapshots completed` — some newly finished thread had raised
  `e`, which line 279 re-raises;
* `outOfFuel` — the observation budget ran out before the loop ended
  (the embedding's fuel artifact for the unbounded `while`). -/
inductive LoopResult where
  | finished (snapshots : List (Nat × Nat)) (completed : Nat)
  | raised (e : String) (snapshots : List (Nat × Nat)) (completed : Nat)
  | outOfFuel (snapshots : List (Nat × Nat)) (completed : Nat)
deriving DecidableEq, Repr

/-- The progress snapshots a loop result carries. -/
def LoopResult.snapshots : LoopResult → List (Nat × Nat)
  | LoopResult.finished r _ => r
  | LoopResult.raised _ r _ => r
  | LoopResult.outOfFuel r _ => r

/-- The polling loop (lines 273-289).  One recursive call is one iteration
of the `while` body; `k` is the current tick (each `time.sleep(1)` advances
it), `done` holds the indices of threads already counted into
`done_threads`, and `reps` accumulates the `(len(done_threads), total)`
snapshots given to `printProgressBar` (skipped in quiet mode).  The first
newly finished thread with a non-`None` exception is re-raised before
`done_threads` is extended, exactly as in the source. -/
def waitLoop (quiet : Bool) (threads : List Thread) :
    Nat → Nat → List Nat → List (Nat × Nat) → LoopResult
  | 0, _, done, reps => LoopResult.outOfFuel reps done.length
  | fuel + 1, k, done, reps =>
      if done.length < threads.length then
        let nd := newly_done threads done k
        match nd.find? (fun i => (thread_get threads i).exn.isSome) with
        | some i =>
            LoopResult.raised ((thread_get threads i).exn.getD "") reps done.length
        | none =>
            let done2 := done ++ nd
            let reps2 :=
              if quiet then reps else reps ++ [(done2.length, threads.length)]
            waitLoop quiet threads fuel (k + 1) done2 reps2
      else LoopResult.finished reps done.length

/-- The command-line flags of the script that the replication core reads
(parsed at lines 119-214; `source`/`target` are the cluster URLs). -/
structure Args where
  source : String
  target : String
  use_target : Bool
  system_dbs : Bool
  permanent : Bool
  verbose : Bool
  quiet : Bool
  debug : Bool
deriving DecidableEq, Repr

/-- The `do_replicate` call of the thread submitted for the (already
quote-plus encoded) database name `db` (lines 261-268): `continuous` is the
`--permanent` flag, and the HTTP collaborator may answer differently per
database, hence `post` is indexed by the name. -/
def job_trace (args : Args) (post : String → Request → CallResult) (db : String) : JobTrace :=
  do_replicate args.source args.target db args.permanent args.use_target
    args.verbose args.debug (post db)

/-- The exception a run propagates, if any. -/
def exnOf : RunResult → Option String
  | RunResult.returned => none
  | RunResult.raised e => some e

/-- The worker threads produced by the submission loop: thread `i` runs
`do_replicate` on the `i`-th submitted database name; `doneAt i` is the
tick at which thread `i` finishes (the scheduler's choice, an input of the
model). -/
def threadsOf (args : Args) (post : String → Request → CallResult)
    (doneAt : Nat → Nat) (subs : List String) : List Thread :=
  (List.range subs.length).map
    (fun i => { doneAt := doneAt i
                exn := exnOf (job_trace args post (subs.getD i "")).result })

/-- `main` (lines 222-296) after argument parsing and database listing:
filter and submit the candidate names, then drive the polling loop from
tick 0 with empty `done_threads`. -/
def mainRun (args : Args) (post : String → Request → CallResult)
    (doneAt : Nat → Nat) (skip_db : List String) (dbs : List String)
    (fuel : Nat) : LoopResult :=
  waitLoop args.quiet
    (threadsOf args post doneAt (submitted_dbs args.system_dbs skip_db dbs))
    fuel 0 [] []

/-! ## Per-job lemmas about `do_replicate` -/

/-- A run raises exactly the exceptions of the HTTP collaborator: if no
call raises, every path of `do_replicate` ends in the bare `return`. -/
lemma do_replicate_no_exn (source target db : String)
    (continuous use_target verbose debug : Bool)
    (post : Request → CallResult)
    (hno : ∀ req e, post req ≠ CallResult.exn e) :
    (do_replicate source target db continuous use_target verbose debug post).result
      = RunResult.returned := by
  cases hp : post (primaryRequest source target db use_target) with
  | exn e => exact absurd hp (hno _ e)
  | success res =>
      by_cases hok : res.ok
      · by_cases hc : continuous
        · cases hp2 : post { primaryRequest source target db use_target with
              continuous := some true } with
          | exn e => exact absurd hp2 (hno _ e)
          | success res2 =>
              by_cases hok2 : res2.ok <;>
                simp [do_replicate, hp, hok, hc, hp2, hok2]
        · simp [do_replicate, hp, hok, hc]
      · simp [do_replicate, hp, hok]

/-- `specOutcome` reports `FailedError` exactly for runs that raised. -/
lemma specOutcome_failedError_iff (db : String) (t : JobTrace) (c : String) :
    specOutcome db t = Outcome.FailedError c ↔ t.result = RunResult.raised c := by
  cases ht : t.result with
  | returned =>
      simp only [specOutcome, classifyRun, ht]
      split_ifs <;> simp
  | raised e =>
      simp only [specOutcome, classifyRun, ht]
      constructor
      · intro h
        cases h
        rfl
      · intro h
        cases h
        rfl

/-- A run classified `Succeeded` returned normally. -/
lemma result_returned_of_succeeded (db : String) (t : JobTrace)
    (h : specOutcome db t = Outcome.Succeeded) : t.result = RunResult.returned := by
  cases ht : t.result with
  | returned => rfl
  | raised e => simp [specOutcome, classifyRun, ht] at h

/-- A run not classified `FailedError` returned normally. -/
lemma result_returned_of_not_failedError (db : String) (t : JobTrace)
    (h : ∀ c, specOutcome db t ≠ Outcome.FailedError c) :
    t.result = RunResult.returned := by
  cases ht : t.result with
  | returned => rfl
  | raised e =>
      exact absurd ((specOutcome_failedError_iff db t e).mpr ht) (h e)

/-- C3: for every job descriptor, a non-ok response to the initial trigger
yields the outcome `FailedRemote("initial replication failed for <db>")`
and stops the run: only the primary request was issued, so the continuous
phase is never attempted, even when `continuous = true`. -/
theorem c3_initial_failure_stops (source target db : String)
    (continuous use_target verbose debug : Bool)
    (post : Request → CallResult) (r : Response)
    (hpost : post (primaryRequest source target db use_target) = CallResult.success r)
    (hok : r.ok = false) :
    specOutcome db (do_replicate source target db continuous use_target verbose debug post)
      = Outcome.FailedRemote ("initial replication failed for " ++ db)
    ∧ (do_replicate source target db continuous use_target verbose debug post).requests
      = [primaryRequest source target db use_target] := by
  constructor
  · simp [do_replicate, hpost, hok, specOutcome, classifyRun]
  · simp [do_replicate, hpost, hok]

/-- C3 witness: concrete non-ok initial response. -/
theorem c3_witness :
    specOutcome "d" (do_replicate "s" "t" "d" true false false false
        (fun _ => CallResult.success { ok := false, status_code := 200, text := "no" }))
      = Outcome.FailedRemote ("initial replication failed for " ++ "d")
    ∧ (do_replicate "s" "t" "d" true false false false
        (fun _ => CallResult.success { ok := false, status_code := 200, text := "no" })).requests
      = [primaryRequest "s" "t" "d" false] :=
  c3_initial_failure_stops "s" "t" "d" true false false false
    (fun _ => CallResult.success { ok := false, status_code := 200, text := "no" })
    { ok := false, status_code := 200, text := "no" } rfl rfl

/-- C4: the primary trigger is the first request on every path: it carries
`create_target = true`, no `continuous` key, and is POSTed to the
`_replicate` API of the target endpoint when `use_target` is set, of the
source endpoint otherwise; when `continuous` is set and the primary
response is ok, the run issues exactly one more request, identical except
for `continuous = true`, to the same URL. -/
theorem c4_trigger_requests (source target db : String)
    (continuous use_target verbose debug : Bool)
    (post : Request → CallResult) :
    (do_replicate source target db continuous use_target verbose debug post).requests.head?
      = some (primaryRequest source target db use_target)
    ∧ (primaryRequest source target db use_target).url
      = (if use_target then target else source) ++ "/_replicate"
    ∧ (primaryRequest source target db use_target).create_target = true
    ∧ (primaryRequest source target db use_target).continuous = none
    ∧ (continuous = true →
        ∀ r, post (primaryRequest source target db use_target) = CallResult.success r →
          r.ok = true →
          (do_replicate source target db continuous use_target verbose debug post).requests
            = [primaryRequest source target db use_target,
               { primaryRequest source target db use_target with continuous := some true }]) := by
  refine ⟨?_, rfl, rfl, rfl, ?_⟩
  · cases hp : post (primaryRequest source target db use_target) with
    | exn e => simp [do_replicate, hp]
    | success res =>
        by_cases hok : res.ok
        · by_cases hc : continuous
          · cases hp2 : post { primaryRequest source target db use_target with
                continuous := some true } with
            | exn e => simp [do_replicate, hp, hok, hc, hp2]
            | success res2 =>
                by_cases hok2 : res2.ok <;>
                  simp [do_replicate, hp, hok, hc, hp2, hok2]
          · simp [do_replicate, hp, hok, hc]
        · simp [do_replicate, hp, hok]
  · intro hc r hp hr
    cases hp2 : post { primaryRequest source target db use_target with
        continuous := some true } with
    | exn e => simp [do_replicate, hp, hr, hc, hp2]
    | success res2 =>
        by_cases hok2 : res2.ok <;>
          simp [do_replicate, hp, hr, hc, hp2, hok2]

/-- C4 witness: concrete two-trigger run with `use_target = true`. -/
theorem c4_witness :
    (do_replicate "s" "t" "d" true true false false
        (fun _ => CallResult.success { ok := true, status_code := 200, text := "y" })).requests.head?
      = some (primaryRequest "s" "t" "d" true)
    ∧ (primaryRequest "s" "t" "d" true).url = (if true then "t" else "s") ++ "/_replicate"
    ∧ (primaryRequest "s" "t" "d" true).create_target = true
    ∧ (primaryRequest "s" "t" "d" true).continuous = none
    ∧ (true = true →
        ∀ r, (fun (_ : Request) => CallResult.success
              { ok := true, status_code := 200, text := "y" }) (primaryRequest "s" "t" "d" true)
            = CallResult.success r →
          r.ok = true →
          (do_replicate "s" "t" "d" true true false false
            (fun _ => CallResult.success { ok := true, status_code := 200, text := "y" })).requests
            = [primaryRequest "s" "t" "d" true,
               { primaryRequest "s" "t" "d" true with continuous := some true }]) :=
  c4_trigger_requests "s" "t" "d" true true false false
    (fun _ => CallResult.success { ok := true, status_code := 200, text := "y" })

/-- C9: `do_replicate` returns `None` on every path — when no HTTP call
raises, the run ends in the bare `return` whatever the `ok` fields say, so
success and remote failure hand the caller the same value; a non-ok initial
response is reported only by the printed failure line. -/
theorem c9_returns_none (source target db : String)
    (continuous use_target verbose debug : Bool)
    (post : Request → CallResult)
    (hno : ∀ req e, post req ≠ CallResult.exn e) :
    (do_replicate source target db continuous use_target verbose debug post).result
      = RunResult.returned
    ∧ (∀ r, post (primaryRequest source target db use_target) = CallResult.success r →
        r.ok = false →
        OutputLine.failedReplicate db
          ∈ (do_replicate source target db continuous use_target verbose debug post).printed) := by
  constructor
  · exact do_replicate_no_exn source target db continuous use_target verbose debug post hno
  · intro r hp hr
    simp [do_replicate, hp, hr]

/-- C9 witness: a collaborator that never raises and reports `ok = false`
for the initial trigger. -/
theorem c9_witness :
    (do_replicate "s" "t" "d" false false false false
        (fun _ => CallResult.success { ok := false, status_code := 200, text := "no" })).result
      = RunResult.returned
    ∧ (∀ r, (fun (_ : Request) => CallResult.success
            { ok := false, status_code := 200, text := "no" }) (primaryRequest "s" "t" "d" false)
          = CallResult.success r →
        r.ok = false →
        OutputLine.failedReplicate "d"
          ∈ (do_replicate "s" "t" "d" false false false false
              (fun _ => CallResult.success { ok := false, status_code := 200, text := "no" })).printed) :=
  c9_returns_none "s" "t" "d" false false false false
    (fun _ => CallResult.success { ok := false, status_code := 200, text := "no" })
    (fun _ e h => by simp at h)

/-! ## The submission filter -/

/-- C10: a candidate name is submitted iff it does not start with `_` or
`system_dbs` is set, and neither the raw name nor its `quote_plus`
encoding is in the skip list; the submitted (and counted) jobs are exactly
the accepted candidates, in order, under their `quote_plus` encoding, and
the batch total is their number. -/
theorem c10_submission_filter (system_dbs : Bool) (skip_db : List String)
    (dbs : List String) :
    submitted_dbs system_dbs skip_db dbs
      = (dbs.filter (fun db =>
          (!starts_underscore db || system_dbs)
          && !skip_db.contains db
          && !skip_db.contains (quote_plus db))).map quote_plus
    ∧ ∀ args post doneAt,
        (threadsOf args post doneAt (submitted_dbs system_dbs skip_db dbs)).length
          = (submitted_dbs system_dbs skip_db dbs).length := by
  constructor
  · induction dbs with
    | nil => rfl
    | cons db rest ih =>
        rw [submitted_dbs, List.filter_cons]
        unfold submitStep
        by_cases h1 : (starts_underscore db && !system_dbs) = true
        · rw [if_pos h1]
          rw [Bool.and_eq_true, Bool.not_eq_true'] at h1
          have hp : ((!starts_underscore db || system_dbs)
              && !skip_db.contains db && !skip_db.contains (quote_plus db)) = false := by
            simp [h1.1, h1.2]
          simp only [hp, Bool.false_eq_true, if_false]
          exact ih
        · rw [if_neg h1]
          rw [Bool.and_eq_true, Bool.not_eq_true'] at h1
          by_cases h2 : (skip_db.contains db || skip_db.contains (quote_plus db)) = true
          · rw [if_pos h2]
            rw [Bool.or_eq_true] at h2
            have hp : ((!starts_underscore db || system_dbs)
                && !skip_db.contains db && !skip_db.contains (quote_plus db)) = false := by
              rcases h2 with h2 | h2 <;> rw [List.elem_iff] at h2 <;> simp [h2]
            simp only [hp, Bool.false_eq_true, if_false]
            exact ih
          · rw [if_neg h2]
            rw [Bool.or_eq_true] at h2
            push_neg at h2
            have hp : ((!starts_underscore db || system_dbs)
                && !skip_db.contains db && !skip_db.contains (quote_plus db)) = true := by
              have hd : db ∉ skip_db := fun hm => h2.1 (List.elem_iff.mpr hm)
              have hqp : quote_plus db ∉ skip_db := fun hm => h2.2 (List.elem_iff.mpr hm)
              cases ha : starts_underscore db with
              | false => simp [ha, hd, hqp]
              | true =>
                  have hs : system_dbs = true := by
                    by_contra hs
                    rw [Bool.not_eq_true] at hs
                    exact absurd ⟨ha, hs⟩ h1
                  simp [hd, hqp, hs]
            simp only [hp, if_true]
            rw [List.map_cons, ih]
  · intro args post doneAt
    simp [threadsOf]

/-! ## The polling loop: invariants -/

/-- Membership in the newly-finished list. -/
lemma mem_newly_done (threads : List Thread) (done : List Nat) (k i : Nat) :
    i ∈ newly_done threads done k ↔
      i < threads.length ∧ i ∉ done ∧ (thread_get threads i).doneAt ≤ k := by
  simp [newly_done, List.mem_filter, List.mem_range, and_assoc]

/-- The newly-finished list has no duplicates. -/
lemma newly_done_nodup (threads : List Thread) (done : List Nat) (k : Nat) :
    (newly_done threads done k).Nodup :=
  List.Nodup.filter _ (List.nodup_range _)

/-- Invariant of the polling loop at the start of the iteration for tick
`k`: `done_threads` holds, without duplicates, exactly the indices of the
threads that finished at some earlier tick. -/
def loopInv (threads : List Thread) (k : Nat) (done : List Nat) : Prop :=
  done.Nodup ∧ ∀ i, i ∈ done ↔ (i < threads.length ∧ (thread_get threads i).doneAt < k)

/-- The invariant holds at loop entry. -/
lemma loopInv_zero (threads : List Thread) : loopInv threads 0 [] := by
  constructor
  · exact List.nodup_nil
  · intro i
    simp

/-- Extending `done_threads` with the tick-`k` finishers re-establishes the
invariant for the next tick. -/
lemma loopInv_step (threads : List Thread) (k : Nat) (done : List Nat)
    (h : loopInv threads k done) :
    loopInv threads (k + 1) (done ++ newly_done threads done k) := by
  obtain ⟨hnd, hmem⟩ := h
  constructor
  · refine List.Nodup.append hnd (newly_done_nodup threads done k) ?_
    intro a ha hb
    rw [mem_newly_done] at hb
    exact hb.2.1 ha
  · intro i
    rw [List.mem_append, hmem, mem_newly_done]
    constructor
    · rintro (⟨h1, h2⟩ | ⟨h1, h2, h3⟩)
      · exact ⟨h1, Nat.lt_succ_of_lt h2⟩
      · exact ⟨h1, Nat.lt_succ_of_le h3⟩
    · rintro ⟨h1, h2⟩
      by_cases hk : (thread_get threads i).doneAt < k
      · exact Or.inl ⟨h1, hk⟩
      · refine Or.inr ⟨h1, ?_, Nat.lt_succ_iff.mp h2⟩
        intro hmem2
        exact hk ((hmem i).mp hmem2).2

/-- A duplicate-free list of indices below `n` has at most `n` entries. -/
lemma nodup_bounded_length_le (l : List Nat) (n : Nat) (hnd : l.Nodup)
    (hb : ∀ i ∈ l, i < n) : l.length ≤ n := by
  classical
  have h1 : l.toFinset.card = l.length := List.toFinset_card_of_nodup hnd
  have h2 : l.toFinset ⊆ Finset.range n := by
    intro a ha
    rw [List.mem_toFinset] at ha
    exact Finset.mem_range.mpr (hb a ha)
  have h3 := Finset.card_le_card h2
  rw [h1, Finset.card_range] at h3
  exact h3

/-- A duplicate-free list of indices below `n` with at least `n` entries
contains every index below `n`. -/
lemma mem_of_nodup_bounded_length_ge (l : List Nat) (n : Nat) (hnd : l.Nodup)
    (hb : ∀ i ∈ l, i < n) (hlen : n ≤ l.length) : ∀ i, i < n → i ∈ l := by
  classical
  have h1 : l.toFinset.card = l.length := List.toFinset_card_of_nodup hnd
  have h2 : l.toFinset ⊆ Finset.range n := by
    intro a ha
    rw [List.mem_toFinset] at ha
    exact Finset.mem_range.mpr (hb a ha)
  have h3 : l.toFinset = Finset.range n := by
    apply Finset.eq_of_subset_of_card_le h2
    rw [h1, Finset.card_range]
    exact hlen
  intro i hi
  have : i ∈ l.toFinset := by
    rw [h3]
    exact Finset.mem_range.mpr hi
  exact List.mem_toFinset.mp this

/-- A list of indices below `n` shorter than `n` misses some index. -/
lemma exists_not_mem_of_length_lt (l : List Nat) (n : Nat) (hlen : l.length < n) :
    ∃ i, i < n ∧ i ∉ l := by
  classical
  by_contra h
  push_neg at h
  have h2 : Finset.range n ⊆ l.toFinset := by
    intro a ha
    rw [Finset.mem_range] at ha
    exact List.mem_toFinset.mpr (h a ha)
  have h3 := Finset.card_le_card h2
  rw [Finset.card_range] at h3
  have h4 : l.toFinset.card ≤ l.length := l.toFinset_card_le
  omega

/-! ## The polling loop: behaviour -/

/-- If no thread raised, the loop finishes once every thread's completion
tick has passed, with the completed count equal to the batch total. -/
lemma waitLoop_finishes (quiet : Bool) (threads : List Thread) :
    ∀ (fuel k : Nat) (done : List Nat) (reps : List (Nat × Nat)),
    loopInv threads k done →
    (∀ i, i < threads.length → (thread_get threads i).exn = none) →
    (∀ i, i < threads.length → (thread_get threads i).doneAt + 2 ≤ k + fuel) →
    1 ≤ fuel →
    ∃ reps2, waitLoop quiet threads fuel k done reps
      = LoopResult.finished reps2 threads.length := by
  intro fuel
  induction fuel with
  | zero => intro k done reps _ _ _ h; omega
  | succ f ih =>
      intro k done reps hinv hex hfuel _
      rw [waitLoop]
      by_cases hlt : done.length < threads.length
      · rw [if_pos hlt]
        have hfind : (newly_done threads done k).find?
            (fun i => (thread_get threads i).exn.isSome) = none := by
          apply List.find?_eq_none.mpr
          intro i hi
          rw [mem_newly_done] at hi
          simp [hex i hi.1]
        simp only [hfind]
        have hf1 : 1 ≤ f := by
          by_contra hf0
          obtain ⟨i, hi, hni⟩ := exists_not_mem_of_length_lt done threads.length hlt
          have h1 := hfuel i hi
          have h2 : ¬ (i < threads.length ∧ (thread_get threads i).doneAt < k) :=
            fun hc => hni ((hinv.2 i).mpr hc)
          push_neg at h2
          have := h2 hi
          omega
        apply ih
        · exact loopInv_step threads k done hinv
        · exact hex
        · intro i hi
          have := hfuel i hi
          omega
        · exact hf1
      · rw [if_neg hlt]
        have hle : done.length ≤ threads.length :=
          nodup_bounded_length_le done threads.length hinv.1
            (fun i hi => ((hinv.2 i).mp hi).1)
        have heq : done.length = threads.length := by omega
        exact ⟨reps, by rw [heq]⟩

/-- If some thread raised, the loop ends by re-raising the exception of
some raised thread (given enough ticks for that thread to finish). -/
lemma waitLoop_raises (quiet : Bool) (threads : List Thread) :
    ∀ (fuel k : Nat) (done : List Nat) (reps : List (Nat × Nat)),
    loopInv threads k done →
    (∀ i, i < threads.length → (thread_get threads i).doneAt < k →
      (thread_get threads i).exn = none) →
    (∃ j, j < threads.length ∧ (thread_get threads j).exn.isSome) →
    (∀ i, i < threads.length → (thread_get threads i).doneAt + 1 ≤ k + fuel) →
    ∃ e reps2 c, waitLoop quiet threads fuel k done reps
        = LoopResult.raised e reps2 c
      ∧ ∃ j, j < threads.length ∧ (thread_get threads j).exn = some e := by
  intro fuel
  induction fuel with
  | zero =>
      intro k done reps _ hclean hexn hfuel
      obtain ⟨j, hj, hjs⟩ := hexn
      have h1 := hfuel j hj
      have h2 := hclean j hj (by omega)
      rw [h2] at hjs
      simp at hjs
  | succ f ih =>
      intro k done reps hinv hclean hexn hfuel
      obtain ⟨j, hj, hjs⟩ := hexn
      have hjnd : j ∉ done := by
        intro hmem
        have := hclean j hj ((hinv.2 j).mp hmem).2
        rw [this] at hjs
        simp at hjs
      have hlt : done.length < threads.length := by
        by_contra hge
        push_neg at hge
        exact hjnd (mem_of_nodup_bounded_length_ge done threads.length hinv.1
          (fun i hi => ((hinv.2 i).mp hi).1) hge j hj)
      rw [waitLoop, if_pos hlt]
      cases hfind : (newly_done threads done k).find?
          (fun i => (thread_get threads i).exn.isSome) with
      | some i =>
          simp only [hfind]
          have hp : ((thread_get threads i).exn.isSome) = true := by
            simpa using List.find?_some hfind
          have hm := List.mem_of_find?_eq_some hfind
          rw [mem_newly_done] at hm
          obtain ⟨e, he⟩ := Option.isSome_iff_exists.mp hp
          refine ⟨e, reps, done.length, ?_, i, hm.1, he⟩
          rw [he]
          rfl
      | none =>
          simp only [hfind]
          apply ih
          · exact loopInv_step threads k done hinv
          · intro i hi hdk
            by_cases hk : (thread_get threads i).doneAt < k
            · exact hclean i hi hk
            · have hnd2 : i ∈ newly_done threads done k := by
                rw [mem_newly_done]
                refine ⟨hi, ?_, by omega⟩
                intro hmem
                exact hk ((hinv.2 i).mp hmem).2
              have := List.find?_eq_none.mp hfind i hnd2
              simpa using this
          · exact ⟨j, hj, hjs⟩
          · intro i hi
            have := hfuel i hi
            omega

/-- The snapshots handed to the progress bar grow monotonically in the
completed component, whatever the loop result. -/
lemma waitLoop_chain (quiet : Bool) (threads : List Thread) :
    ∀ (fuel k : Nat) (done : List Nat) (reps : List (Nat × Nat)),
    List.Chain' (fun a b : Nat × Nat => a.1 ≤ b.1) reps →
    (∀ p ∈ reps.getLast?, p.1 ≤ done.length) →
    List.Chain' (fun a b : Nat × Nat => a.1 ≤ b.1)
      (waitLoop quiet threads fuel k done reps).snapshots := by
  intro fuel
  induction fuel with
  | zero =>
      intro k done reps h1 _
      simpa [waitLoop, LoopResult.snapshots] using h1
  | succ f ih =>
      intro k done reps h1 h2
      rw [waitLoop]
      by_cases hlt : done.length < threads.length
      · rw [if_pos hlt]
        cases hfind : (newly_done threads done k).find?
            (fun i => (thread_get threads i).exn.isSome) with
        | some i =>
            simp only [hfind]
            simpa [LoopResult.snapshots] using h1
        | none =>
            simp only [hfind]
            have hgrow : done.length ≤ (done ++ newly_done threads done k).length := by
              simp
            apply ih
            · by_cases hq : quiet = true
              · rw [if_pos hq]
                exact h1
              · rw [if_neg hq]
                refine List.Chain'.append h1 (List.chain'_singleton _) ?_
                intro x hx y hy
                simp only [List.head?_cons, Option.mem_def, Option.some.injEq] at hy
                have := h2 x hx
                subst hy
                simpa using by omega
            · by_cases hq : quiet = true
              · rw [if_pos hq]
                intro p hp
                have := h2 p hp
                omega
              · rw [if_neg hq]
                intro p hp
                rw [List.getLast?_concat] at hp
                simp only [Option.mem_def, Option.some.injEq] at hp
                subst hp
                simp
      · rw [if_neg hlt]
        simpa [LoopResult.snapshots] using h1

/-- When the loop (with progress reporting on) starts with fewer completed
threads than the total and ends normally, its last snapshot is
`(total, total)` and the completed count equals the total. -/
lemma waitLoop_final_snapshot (threads : List Thread) :
    ∀ (fuel k : Nat) (done : List Nat) (reps reps2 : List (Nat × Nat)) (c : Nat),
    done.Nodup → (∀ i ∈ done, i < threads.length) →
    done.length < threads.length →
    waitLoop false threads fuel k done reps = LoopResult.finished reps2 c →
    reps2.getLast? = some (threads.length, threads.length) ∧ c = threads.length := by
  intro fuel
  induction fuel with
  | zero =>
      intro k done reps reps2 c _ _ _ heq
      rw [waitLoop] at heq
      simp at heq
  | succ f ih =>
      intro k done reps reps2 c hnd hb hlt heq
      rw [waitLoop, if_pos hlt] at heq
      cases hfind : (newly_done threads done k).find?
          (fun i => (thread_get threads i).exn.isSome) with
      | some i =>
          simp only [hfind] at heq
          simp at heq
      | none =>
          simp only [hfind] at heq
          simp at heq
          have hnd2 : (done ++ newly_done threads done k).Nodup := by
            refine List.Nodup.append hnd (newly_done_nodup threads done k) ?_
            intro a ha hb2
            rw [mem_newly_done] at hb2
            exact hb2.2.1 ha
          have hb2 : ∀ i ∈ done ++ newly_done threads done k, i < threads.length := by
            intro i hi
            rcases List.mem_append.mp hi with h | h
            · exact hb i h
            · exact ((mem_newly_done threads done k i).mp h).1
          by_cases hlt2 : (done ++ newly_done threads done k).length < threads.length
          · exact ih (k + 1) _ _ reps2 c hnd2 hb2 hlt2 heq
          · have hle := nodup_bounded_length_le _ threads.length hnd2 hb2
            have hlen : (done ++ newly_done threads done k).length = threads.length := by
              omega
            cases f with
            | zero =>
                rw [waitLoop] at heq
                simp at heq
            | succ f2 =>
                rw [waitLoop, if_neg (by omega)] at heq
                rw [LoopResult.finished.injEq] at heq
                obtain ⟨hr, hc⟩ := heq
                subst hr
                rw [List.length_append] at hlen
                constructor
                · rw [List.getLast?_concat, hlen]
                · rw [← hc, List.length_append]
                  exact hlen

/-! ## Bridging the thread list and the submitted jobs -/

/-- Whether a loop result is the re-raise of a worker exception (the only
failing way `main` can end). -/
def LoopResult.isRaised : LoopResult → Bool
  | LoopResult.raised _ _ _ => true
  | _ => false

/-- One thread per submitted database. -/
lemma threadsOf_length (args : Args) (post : String → Request → CallResult)
    (doneAt : Nat → Nat) (subs : List String) :
    (threadsOf args post doneAt subs).length = subs.length := by
  simp [threadsOf]

/-- Thread `i` is the `do_replicate` run on the `i`-th submitted name. -/
lemma thread_get_threadsOf (args : Args) (post : String → Request → CallResult)
    (doneAt : Nat → Nat) (subs : List String) (i : Nat) (h : i < subs.length) :
    thread_get (threadsOf args post doneAt subs) i
      = { doneAt := doneAt i
          exn := exnOf (job_trace args post (subs.getD i "")).result } := by
  unfold thread_get threadsOf
  rw [List.getD_eq_getElem]
  · simp
  · simp [h]

/-- The defaulted index read stays inside the list. -/
lemma getD_mem_of_lt (subs : List String) (i : Nat) (h : i < subs.length) :
    subs.getD i "" ∈ subs := by
  rw [List.getD_eq_getElem subs "" h]
  exact List.getElem_mem h

/-- Concrete flags for witness runs: quiet mode off, everything else at
its default. -/
def cArgsOk : Args :=
  { source := "http://s", target := "http://t", use_target := false
    system_dbs := false, permanent := false, verbose := false
    quiet := false, debug := false }

/-- A collaborator whose every call succeeds with `ok = true`. -/
def cPostOk : String → Request → CallResult :=
  fun _ _ => CallResult.success { ok := true, status_code := 200, text := "ok" }

/-- A collaborator answering `ok = false` for database `dbx` and
`ok = true` for every other database. -/
def cPostRemoteFail : String → Request → CallResult :=
  fun db _ =>
    if db == "dbx" then CallResult.success { ok := false, status_code := 200, text := "no" }
    else CallResult.success { ok := true, status_code := 200, text := "ok" }

/-- A collaborator whose every call raises. -/
def cPostBoom : String → Request → CallResult :=
  fun _ _ => CallResult.exn "boom"

/-! ## Batch-level claims -/

/-- C5: when every submitted job succeeds, the completed count reaches
exactly the batch total, the polling loop terminates, and the run ends
normally reporting that total (given enough polling ticks for all threads
to be observed). -/
theorem c5_success_batch (args : Args) (post : String → Request → CallResult)
    (doneAt : Nat → Nat) (skip_db dbs : List String) (fuel : Nat)
    (hok : ∀ db ∈ submitted_dbs args.system_dbs skip_db dbs,
        specOutcome db (job_trace args post db) = Outcome.Succeeded)
    (hfuel : ∀ i, i < (submitted_dbs args.system_dbs skip_db dbs).length →
        doneAt i + 2 ≤ fuel)
    (hfuel1 : 1 ≤ fuel) :
    ∃ reps, mainRun args post doneAt skip_db dbs fuel
      = LoopResult.finished reps (submitted_dbs args.system_dbs skip_db dbs).length := by
  unfold mainRun
  have hlen := threadsOf_length args post doneAt (submitted_dbs args.system_dbs skip_db dbs)
  obtain ⟨reps2, h⟩ := waitLoop_finishes args.quiet
    (threadsOf args post doneAt (submitted_dbs args.system_dbs skip_db dbs))
    fuel 0 [] [] (loopInv_zero _)
    (by
      intro i hi
      rw [hlen] at hi
      rw [thread_get_threadsOf args post doneAt _ i hi]
      have := result_returned_of_succeeded _ _
        (hok _ (getD_mem_of_lt _ i hi))
      show exnOf (job_trace args post
        ((submitted_dbs args.system_dbs skip_db dbs).getD i "")).result = none
      rw [this]
      rfl)
    (by
      intro i hi
      rw [hlen] at hi
      rw [thread_get_threadsOf args post doneAt _ i hi]
      simpa using hfuel i hi)
    hfuel1
  exact ⟨reps2, by rw [h, hlen]⟩

/-- C5 witness: a one-database batch whose single job succeeds. -/
theorem c5_witness :
    ∃ reps, mainRun cArgsOk cPostOk (fun _ => 0) [] ["a"] 2
      = LoopResult.finished reps (submitted_dbs cArgsOk.system_dbs [] ["a"]).length :=
  c5_success_batch cArgsOk cPostOk (fun _ => 0) [] ["a"] 2
    (by decide) (fun i _ => by simp) (by norm_num)

/-- C6: over any batch run, the `(completed, total)` snapshots handed to
the progress bar are non-decreasing in the completed component. -/
theorem c6_snapshots_monotone (args : Args) (post : String → Request → CallResult)
    (doneAt : Nat → Nat) (skip_db dbs : List String) (fuel : Nat) :
    List.Chain' (fun a b : Nat × Nat => a.1 ≤ b.1)
      (mainRun args post doneAt skip_db dbs fuel).snapshots := by
  unfold mainRun
  apply waitLoop_chain
  · exact List.chain'_nil
  · intro p hp
    simp at hp

/-- C1 (amended): a job whose remote trigger reports a non-ok response
does not make the batch result a failure: as long as no job raises an
exception, the run ends normally with every job counted, however many jobs
reported `ok = false`; the non-ok response is visible only in that job's
printed output. -/
theorem c1_amended_remote_failure_not_fatal (args : Args)
    (post : String → Request → CallResult) (doneAt : Nat → Nat)
    (skip_db dbs : List String) (fuel : Nat)
    (hnoerr : ∀ db ∈ submitted_dbs args.system_dbs skip_db dbs, ∀ c,
        specOutcome db (job_trace args post db) ≠ Outcome.FailedError c)
    (hfail : ∃ db ∈ submitted_dbs args.system_dbs skip_db dbs, ∃ r,
        specOutcome db (job_trace args post db) = Outcome.FailedRemote r)
    (hfuel : ∀ i, i < (submitted_dbs args.system_dbs skip_db dbs).length →
        doneAt i + 2 ≤ fuel)
    (hfuel1 : 1 ≤ fuel) :
    ∃ reps, mainRun args post doneAt skip_db dbs fuel
      = LoopResult.finished reps (submitted_dbs args.system_dbs skip_db dbs).length := by
  clear hfail
  unfold mainRun
  have hlen := threadsOf_length args post doneAt (submitted_dbs args.system_dbs skip_db dbs)
  obtain ⟨reps2, h⟩ := waitLoop_finishes args.quiet
    (threadsOf args post doneAt (submitted_dbs args.system_dbs skip_db dbs))
    fuel 0 [] [] (loopInv_zero _)
    (by
      intro i hi
      rw [hlen] at hi
      rw [thread_get_threadsOf args post doneAt _ i hi]
      have := result_returned_of_not_failedError _ _
        (hnoerr _ (getD_mem_of_lt _ i hi))
      show exnOf (job_trace args post
        ((submitted_dbs args.system_dbs skip_db dbs).getD i "")).result = none
      rw [this]
      rfl)
    (by
      intro i hi
      rw [hlen] at hi
      rw [thread_get_threadsOf args post doneAt _ i hi]
      simpa using hfuel i hi)
    hfuel1
  exact ⟨reps2, by rw [h, hlen]⟩

/-- C1 counterexample: a two-database batch in which `dbx` gets a non-ok
response (a `FailedRemote` outcome) while `dby` succeeds; the batch ends
normally, counting both jobs — it is not a failure referencing `dbx`. -/
theorem c1_counterexample :
    specOutcome "dbx" (job_trace cArgsOk cPostRemoteFail "dbx")
      = Outcome.FailedRemote ("initial replication failed for dbx")
    ∧ mainRun cArgsOk cPostRemoteFail (fun _ => 0) [] ["dbx", "dby"] 2
      = LoopResult.finished [(2, 2)] 2
    ∧ (mainRun cArgsOk cPostRemoteFail (fun _ => 0) [] ["dbx", "dby"] 2).isRaised
      = false := by
  refine ⟨by decide, by decide, by decide⟩

/-- C1 witness: the amended statement at the counterexample's inputs. -/
theorem c1_witness :
    ∃ reps, mainRun cArgsOk cPostRemoteFail (fun _ => 0) [] ["dbx", "dby"] 2
      = LoopResult.finished reps
          (submitted_dbs cArgsOk.system_dbs [] ["dbx", "dby"]).length := by
  apply c1_amended_remote_failure_not_fatal cArgsOk cPostRemoteFail (fun _ => 0)
    [] ["dbx", "dby"] 2
  · intro db hdb c hcontra
    have hsubs : submitted_dbs cArgsOk.system_dbs [] ["dbx", "dby"]
        = ["dbx", "dby"] := by decide
    rw [hsubs] at hdb
    simp only [List.mem_cons, List.not_mem_nil, or_false] at hdb
    rcases hdb with rfl | rfl
    · have hval : specOutcome "dbx" (job_trace cArgsOk cPostRemoteFail "dbx")
          = Outcome.FailedRemote ("initial replication failed for dbx") := by decide
      rw [hval] at hcontra
      simp at hcontra
    · have hval : specOutcome "dby" (job_trace cArgsOk cPostRemoteFail "dby")
          = Outcome.Succeeded := by decide
      rw [hval] at hcontra
      simp at hcontra
  · exact ⟨"dbx", by decide, "initial replication failed for dbx", by decide⟩
  · intro i _
    simp
  · norm_num

/-- C2 (amended): only a raised exception (`FailedError`) aborts the
batch-level wait: when some submitted job's run raises, the batch ends by
re-raising the exception of a raised job; a non-ok response
(`FailedRemote`) neither aborts the wait nor fails the batch. -/
theorem c2_amended_only_exceptions_abort (args : Args)
    (post : String → Request → CallResult) (doneAt : Nat → Nat)
    (skip_db dbs : List String) (fuel : Nat)
    (hfailerr : ∃ db ∈ submitted_dbs args.system_dbs skip_db dbs, ∃ c,
        specOutcome db (job_trace args post db) = Outcome.FailedError c)
    (hfuel : ∀ i, i < (submitted_dbs args.system_dbs skip_db dbs).length →
        doneAt i + 1 ≤ fuel) :
    ∃ e reps c2, mainRun args post doneAt skip_db dbs fuel
        = LoopResult.raised e reps c2
      ∧ ∃ db ∈ submitted_dbs args.system_dbs skip_db dbs,
          specOutcome db (job_trace args post db) = Outcome.FailedError e := by
  unfold mainRun
  have hlen := threadsOf_length args post doneAt (submitted_dbs args.system_dbs skip_db dbs)
  obtain ⟨db0, hdb0, c0, hc0⟩ := hfailerr
  obtain ⟨j, hj, hjeq⟩ := List.mem_iff_getElem.mp hdb0
  obtain ⟨e, reps2, c2, hrun, j2, hj2, hj2e⟩ := waitLoop_raises args.quiet
    (threadsOf args post doneAt (submitted_dbs args.system_dbs skip_db dbs))
    fuel 0 [] [] (loopInv_zero _)
    (by
      intro i _ hneg
      omega)
    (by
      refine ⟨j, by rw [hlen]; exact hj, ?_⟩
      rw [thread_get_threadsOf args post doneAt _ j hj]
      have hdbj : (submitted_dbs args.system_dbs skip_db dbs).getD j "" = db0 := by
        rw [List.getD_eq_getElem _ "" hj]
        exact hjeq
      rw [hdbj]
      have := (specOutcome_failedError_iff db0 (job_trace args post db0) c0).mp hc0
      simp [this, exnOf])
    (by
      intro i hi
      rw [hlen] at hi
      rw [thread_get_threadsOf args post doneAt _ i hi]
      simpa using hfuel i hi)
  rw [hlen] at hj2
  rw [thread_get_threadsOf args post doneAt _ j2 hj2] at hj2e
  refine ⟨e, reps2, c2, hrun, (submitted_dbs args.system_dbs skip_db dbs).getD j2 "",
    getD_mem_of_lt _ j2 hj2, ?_⟩
  apply (specOutcome_failedError_iff _ _ e).mpr
  cases hres : (job_trace args post
      ((submitted_dbs args.system_dbs skip_db dbs).getD j2 "")).result with
  | returned =>
      rw [hres] at hj2e
      simp [exnOf] at hj2e
  | raised e2 =>
      rw [hres] at hj2e
      simp only [exnOf, Option.some.injEq] at hj2e
      rw [hj2e]

/-- C2 counterexample: a raised exception (`FailedError`) aborts the batch
with a failure, while a non-ok response (`FailedRemote`) lets the batch
end normally — the two are not treated identically. -/
theorem c2_counterexample :
    specOutcome "a" (job_trace cArgsOk cPostBoom "a") = Outcome.FailedError "boom"
    ∧ mainRun cArgsOk cPostBoom (fun _ => 0) [] ["a"] 2 = LoopResult.raised "boom" [] 0
    ∧ specOutcome "dbx" (job_trace cArgsOk cPostRemoteFail "dbx")
        = Outcome.FailedRemote ("initial replication failed for dbx")
    ∧ (mainRun cArgsOk cPostRemoteFail (fun _ => 0) [] ["dbx"] 2).isRaised = false := by
  refine ⟨by decide, by decide, by decide, by decide⟩

/-- C2 witness: the amended statement on a one-job batch whose call
raises. -/
theorem c2_witness :
    ∃ e reps c2, mainRun cArgsOk cPostBoom (fun _ => 0) [] ["a"] 1
        = LoopResult.raised e reps c2
      ∧ ∃ db ∈ submitted_dbs cArgsOk.system_dbs [] ["a"],
          specOutcome db (job_trace cArgsOk cPostBoom db) = Outcome.FailedError e :=
  c2_amended_only_exceptions_abort cArgsOk cPostBoom (fun _ => 0) [] ["a"] 1
    ⟨"a", by decide, "boom", by decide⟩ (fun i _ => by simp)

/-- C7 (amended): with progress reporting on and at least one submitted
job, a batch run that ends normally always emits a final
`(total, total)` snapshot, and its completed count is the total; the
zero-job case is excluded because the loop body never runs there. -/
theorem c7_amended_final_snapshot (args : Args)
    (post : String → Request → CallResult) (doneAt : Nat → Nat)
    (skip_db dbs : List String) (fuel : Nat) (reps : List (Nat × Nat)) (c : Nat)
    (hq : args.quiet = false)
    (hne : 1 ≤ (submitted_dbs args.system_dbs skip_db dbs).length)
    (hrun : mainRun args post doneAt skip_db dbs fuel = LoopResult.finished reps c) :
    reps.getLast? = some ((submitted_dbs args.system_dbs skip_db dbs).length,
        (submitted_dbs args.system_dbs skip_db dbs).length)
    ∧ c = (submitted_dbs args.system_dbs skip_db dbs).length := by
  unfold mainRun at hrun
  rw [hq] at hrun
  have hlen := threadsOf_length args post doneAt (submitted_dbs args.system_dbs skip_db dbs)
  have h := waitLoop_final_snapshot
    (threadsOf args post doneAt (submitted_dbs args.system_dbs skip_db dbs))
    fuel 0 [] [] reps c List.nodup_nil (by simp) (by rw [hlen]; exact hne) hrun
  rwa [hlen] at h

/-- C7 counterexample: a batch whose only candidate is skipped as a system
database has zero jobs; the loop body never runs, so although the
completed count (0) equals the total (0), no `(0, 0)` snapshot is ever
emitted despite quiet mode being off. -/
theorem c7_counterexample :
    mainRun cArgsOk cPostOk (fun _ => 0) [] ["_users"] 1 = LoopResult.finished [] 0
    ∧ ¬ ((0, 0) ∈ (mainRun cArgsOk cPostOk (fun _ => 0) [] ["_users"] 1).snapshots) := by
  refine ⟨by decide, by decide⟩

/-- C7 witness: a one-job batch ending normally; the final snapshot is
`(1, 1)`. -/
theorem c7_witness :
    [(1, 1)].getLast? = some ((submitted_dbs cArgsOk.system_dbs [] ["a"]).length,
        (submitted_dbs cArgsOk.system_dbs [] ["a"]).length)
    ∧ 1 = (submitted_dbs cArgsOk.system_dbs [] ["a"]).length :=
  c7_amended_final_snapshot cArgsOk cPostOk (fun _ => 0) [] ["a"] 2 [(1, 1)] 1
    rfl (by decide) (by decide)


